import Mathlib

/-!
Verification of the sqs-arch message-dispatch engine (src/index.js).

The embedding models the JavaScript runtime values the dispatch code
manipulates (`JsValue`), the schema matcher inside `self.process`'s pushed
closure, the registration argument checks, the completion callback wired to
`self.report` and `self.removeMessage`, and the per-message first-match loop
of `self.start`.  External collaborators (the SQS transport, sequelize, the
JSON parser) enter only through their interface: `JSON.parse` is a parameter
`parse : String → Option JsValue`, the transport delete and the audit insert
are recorded as events, and the current clock is a parameter `now`.
-/

namespace SqsArch

/-- The six constructor values that the schema switch in `self.process`
recognises (`String`, `Array`, `Object`, `Number`, `Boolean`, `Date`), plus
`kfunction` for every other function value (constructors are themselves
functions, and `Function` is not one of the six switch cases). -/
inductive JsKind
  | kstring
  | karray
  | kobject
  | knumber
  | kboolean
  | kdate
  | kfunction
deriving DecidableEq

/-- A JavaScript runtime value, as far as the dispatch engine inspects one:
`undefined`/`null`, primitives, arrays, plain objects (field lists in insertion
order), `Date` instances (abstracted to their epoch value), the built-in
constructor functions used as schema kinds, and other functions. -/
inductive JsValue
  | undefined
  | null
  | bool (b : Bool)
  | num (n : Int)
  | str (s : String)
  | arr (elems : List JsValue)
  | obj (fields : List (String × JsValue))
  | date (epochMs : Int)
  | ctor (k : JsKind)
  | func (id : Nat)

/-- JavaScript `typeof`. -/
def jsTypeof : JsValue → String
  | .undefined => "undefined"
  | .null => "object"
  | .bool _ => "boolean"
  | .num _ => "number"
  | .str _ => "string"
  | .arr _ => "object"
  | .obj _ => "object"
  | .date _ => "object"
  | .ctor _ => "function"
  | .func _ => "function"

/-- JavaScript truthiness (`if (v)`). -/
def jsTruthy : JsValue → Bool
  | .undefined => false
  | .null => false
  | .bool b => b
  | .num n => decide (n ≠ 0)
  | .str s => decide (s ≠ "")
  | .arr _ => true
  | .obj _ => true
  | .date _ => true
  | .ctor _ => true
  | .func _ => true

/-- `v.hasOwnProperty(p)`: throws a TypeError on `null`/`undefined`
(`Except.error`); objects answer by their own fields; arrays own their
indices and `length`; primitive strings are boxed and own their indices and
`length`; number, boolean, `Date` and function values own no property the
dispatch code ever asks about (message bodies are strings or JSON values). -/
def hasOwnPropertyE : JsValue → String → Except String Bool
  | .null, _ => .error "TypeError"
  | .undefined, _ => .error "TypeError"
  | .obj fields, p => .ok (fields.lookup p).isSome
  | .arr xs, p =>
      .ok (p == "length" ||
        (match p.toNat? with
         | some i => decide (i < xs.length)
         | none => false))
  | .str s, p =>
      .ok (p == "length" ||
        (match p.toNat? with
         | some i => decide (i < s.length)
         | none => false))
  | .bool _, _ => .ok false
  | .num _, _ => .ok false
  | .date _, _ => .ok false
  | .ctor _, _ => .ok false
  | .func _, _ => .ok false

/-- Property read `v[p]` / `v.p`: throws a TypeError on `null`/`undefined`,
otherwise yields the property value or `undefined`. -/
def getPropE : JsValue → String → Except String JsValue
  | .null, _ => .error "TypeError"
  | .undefined, _ => .error "TypeError"
  | .obj fields, p => .ok ((fields.lookup p).getD .undefined)
  | .arr xs, p =>
      .ok (if p == "length" then .num xs.length
        else match p.toNat? with
          | some i => xs.getD i .undefined
          | none => .undefined)
  | .str s, p =>
      .ok (if p == "length" then .num s.length
        else match p.toNat? with
          | some i =>
              match s.toList.get? i with
              | some ch => .str (String.mk [ch])
              | none => .undefined
          | none => .undefined)
  | .bool _, _ => .ok .undefined
  | .num _, _ => .ok .undefined
  | .date _, _ => .ok .undefined
  | .ctor _, _ => .ok .undefined
  | .func _, _ => .ok .undefined

/-- `v.constructor` classified: `none` means the access itself throws
(`null`/`undefined` have no constructor); every function value's constructor
is `Function`, which the schema switch treats as unsupported. -/
def jsConstructorKind : JsValue → Option JsKind
  | .undefined => none
  | .null => none
  | .bool _ => some .kboolean
  | .num _ => some .knumber
  | .str _ => some .kstring
  | .arr _ => some .karray
  | .obj _ => some .kobject
  | .date _ => some .kdate
  | .ctor _ => some .kfunction
  | .func _ => some .kfunction

/-- Outcome of one `switch (validation[prop])` arm of the matcher. -/
inductive FieldCheck
  | pass
  | fail
  | throwType
  | throwUnsupported
deriving DecidableEq

/-- `message.Body[prop].constructor !== K` for a constructor case `K` of the
switch: reading `.constructor` of `null`/`undefined` throws a TypeError;
otherwise a differing constructor returns `false` from the closure. -/
def ctorCmp (v : JsValue) (k : JsKind) : FieldCheck :=
  match jsConstructorKind v with
  | none => .throwType
  | some kv => if kv = k then .pass else .fail

/-- One arm of the matcher switch (src/index.js lines 139-172): the six
constructor cases, with the `String` case using `typeof` (null-safe) and the
others comparing `.constructor`; any other schema value falls to the
`default` arm, which throws `Object Constructor Type not supported.`. -/
def checkField (sv : JsValue) (v : JsValue) : FieldCheck :=
  match sv with
  | .ctor .kstring => if jsTypeof v == "string" then .pass else .fail
  | .ctor .karray => ctorCmp v .karray
  | .ctor .kobject => ctorCmp v .kobject
  | .ctor .knumber => ctorCmp v .knumber
  | .ctor .kboolean => ctorCmp v .kboolean
  | .ctor .kdate => ctorCmp v .kdate
  | _ => .throwUnsupported

/-- A registered validation object: its own enumerable fields in insertion
order, each mapping a property name to the schema value supplied for it. -/
abbrev Validation := List (String × JsValue)

/-- Result of running the schema-match loop on a decoded body. -/
inductive MatchResult
  | matched
  | nomatch
  | jsError (e : String)
deriving DecidableEq

/-- The `for (var prop in validation)` loop of the pushed process closure
(src/index.js lines 137-176): for each declared field, if the body lacks it
the closure returns `false`; otherwise the switch checks the value, where a
mismatch returns `false`, a `null`/`undefined` value under a constructor
case throws a TypeError, and an unsupported schema value throws the
configuration error.  An exhausted loop means the schema matched. -/
def matchLoop (body : JsValue) : Validation → MatchResult
  | [] => .matched
  | (p, sv) :: rest =>
    match hasOwnPropertyE body p with
    | .error e => .jsError e
    | .ok false => .nomatch
    | .ok true =>
      match getPropE body p with
      | .error e => .jsError e
      | .ok v =>
        match checkField sv v with
        | .pass => matchLoop body rest
        | .fail => .nomatch
        | .throwType => .jsError "TypeError"
        | .throwUnsupported => .jsError "Object Constructor Type not supported."

/-- An SQS message as the dispatch engine sees it. -/
structure SqsMessage where
  MessageId : String
  ReceiptHandle : String
  Body : JsValue

/-- The body-decode step at the top of the process closure (src/index.js
lines 130-136): a body that is not `typeof 'object'` is passed to
`JSON.parse` (which coerces its argument to a string, so numbers and
booleans re-parse to themselves and functions or `undefined` fail); a parse
failure makes the closure return `false`.  `parse` is the external
`JSON.parse` restricted to string inputs. -/
def decodeBody (parse : String → Option JsValue) : JsValue → Option JsValue
  | .str s => parse s
  | .num n => some (.num n)
  | .bool b => some (.bool b)
  | .undefined => none
  | .func _ => none
  | .ctor _ => none
  | v => some v

/-- What one pushed process closure does with a message, before any handler
completion: return `false` (no match or decode failure), invoke the handler
with the decoded body and return `true`, or throw. -/
inductive ProcessStep
  | noMatch
  | invoked (body : JsValue)
  | threw (e : String)

/-- One pushed process closure applied to a message (src/index.js lines
128-193): decode the body (mutating `message.Body` to the decoded value on
success), run the match loop, and on a full match invoke the handler with
the decoded body.  The returned message is the (possibly mutated) argument
object. -/
def processClosure (parse : String → Option JsValue) (validation : Validation)
    (msg : SqsMessage) : ProcessStep × SqsMessage :=
  match decodeBody parse msg.Body with
  | none => (.noMatch, msg)
  | some b =>
    match matchLoop b validation with
    | .matched => (.invoked b, { msg with Body := b })
    | .nomatch => (.noMatch, { msg with Body := b })
    | .jsError e => (.threw e, { msg with Body := b })

/-- Outcome of routing one message through the registered closures. -/
inductive DispatchResult
  | handled (idx : Nat) (body : JsValue) (msgAfter : SqsMessage)
  | unmatched (msgAfter : SqsMessage)
  | errored (e : String) (msgAfter : SqsMessage)

/-- The inner loop of `self.start`'s polling tick (src/index.js lines
392-396): try each registered closure in order, stopping at the first that
returns `true`; a thrown exception propagates out of the loop. -/
def dispatchFrom (parse : String → Option JsValue) :
    Nat → SqsMessage → List Validation → DispatchResult
  | _, msg, [] => .unmatched msg
  | i, msg, v :: rest =>
    match processClosure parse v msg with
    | (.invoked b, m) => .handled i b m
    | (.threw e, m) => .errored e m
    | (.noMatch, m) => dispatchFrom parse (i + 1) m rest

/-- Route one received message through the registered process closures in
registration order. -/
def dispatchMessage (parse : String → Option JsValue)
    (procs : List Validation) (msg : SqsMessage) : DispatchResult :=
  dispatchFrom parse 0 msg procs

/-- The handler invocations performed synchronously by one dispatch: the
index of the invoked rule with the decoded body it received, or none.  Audit
writes and transport deletes never occur during dispatch; they are produced
only by `completionRun`, which runs when the selected handler later calls
its completion callback. -/
def handlerInvocations : DispatchResult → List (Nat × JsValue)
  | .handled i b _ => [(i, b)]
  | .unmatched _ => []
  | .errored _ _ => []

/-- The own enumerable properties that `for (var prop in validation)`
iterates for a registered validation value.  Registration admits only
`typeof 'object'` values, so only plain objects, arrays, `null` and `Date`
instances ever reach the closure: objects contribute their fields in
insertion order, arrays their indices, and `null`/`Date` nothing. -/
def validationOwnFields : JsValue → Validation
  | .obj fields => fields
  | .arr xs => xs.enum.map (fun ix => (toString ix.1, ix.2))
  | _ => []

/-- The argument checks and push of `self.process` (src/index.js lines
113-128): the use case is rejected only when it is falsy AND not of string
type (the source combines the two tests with `&&`), the validation must be
`typeof 'object'`, the callback must be `typeof 'function'`; on success the
closure for `validationOwnFields validation` is appended to
`self.processes`. -/
def processRegister (procs : List Validation)
    (useCase validation callback : JsValue) : Except String (List Validation) :=
  if jsTruthy useCase = false ∧ jsTypeof useCase ≠ "string" then
    .error "The argument you supplied for the use case is improper. It must be a string."
  else if jsTypeof validation ≠ "object" then
    .error "The argument you supplied for the validation is improper. It must be an object."
  else if jsTypeof callback ≠ "function" then
    .error "The argument you supplied for the callback is improper. It must be a function."
  else
    .ok (procs ++ [validationOwnFields validation])

mutual

/-- `JSON.stringify`, as far as the audit path uses it: `undefined` and
functions serialize to nothing, scalars to their JSON text (string escaping
and the ISO rendering of `Date` are abstracted), arrays render skipped
members as `null`, and objects drop fields whose value does not serialize. -/
def jsStringify : JsValue → Option String
  | .undefined => none
  | .func _ => none
  | .ctor _ => none
  | .null => some "null"
  | .bool b => some (if b then "true" else "false")
  | .num n => some (toString n)
  | .str s => some ("\"" ++ s ++ "\"")
  | .date t => some ("\"" ++ toString t ++ "\"")
  | .arr xs => some ("[" ++ String.intercalate "," (jsStringifyArr xs) ++ "]")
  | .obj fs => some ("\x7b" ++ String.intercalate "," (jsStringifyObj fs) ++ "\x7d")

/-- Serialize array members, rendering unserializable members as `null`. -/
def jsStringifyArr : List JsValue → List String
  | [] => []
  | x :: xs => (jsStringify x).getD "null" :: jsStringifyArr xs

/-- Serialize object fields, skipping unserializable values. -/
def jsStringifyObj : List (String × JsValue) → List String
  | [] => []
  | (p, v) :: fs =>
    match jsStringify v with
    | none => jsStringifyObj fs
    | some s => ("\"" ++ p ++ "\":" ++ s) :: jsStringifyObj fs

end

/-- The row passed to `Record.create` by `self.report` (src/index.js lines
213-219).  These are the only columns of the audit table defined in
`self.start`: there is no original-message-id, group-label or
affected-count column. -/
structure AuditRecord where
  messageId : String
  createDate : Int
  reportStatus : String
  reference : JsValue
  referenceValue : Option String

/-- `self.report(err, output, message)` (src/index.js lines 204-220): pick
`error`/`success` status by the truthiness of `err`, serialize the error or
the output, then build the row; reading `message.Body.by` throws when the
body is `null`/`undefined`.  The actual insert is fire-and-forget
(`Record.create(...).then(noop)`), so the row is returned and its
asynchronous persistence outcome gates nothing. -/
def report (now : Int) (err output : JsValue) (msg : SqsMessage) :
    Except String AuditRecord :=
  let status := if jsTruthy err then "error" else "success"
  let val := if jsTruthy err then jsStringify err else jsStringify output
  match getPropE msg.Body "by" with
  | .error e => .error e
  | .ok r =>
      .ok { messageId := msg.MessageId, createDate := now, reportStatus := status,
            reference := r, referenceValue := val }

/-- The observable steps taken by the completion callback after a handler
reports: hook invocations, the audit-row insert handed to the persistence
collaborator, and the transport delete. -/
inductive Event
  | errorHookCalled (err : JsValue)
  | doneHookCalled (output : JsValue) (msg : SqsMessage)
  | auditCreate (rec : AuditRecord)
  | deleteMessage (receiptHandle : String)

/-- The completion callback passed to a matched handler (src/index.js lines
178-191), called in JavaScript with up to four arguments; the function
declares only `(err, output)`, so any further arguments are ignored.  On a
truthy `err`: call the registered error hook with it, report, then
`removeMessage`; otherwise call the registered done hook with
`{output, message}`, report, then `removeMessage`.  A hook that throws, or a
TypeError while `report` builds the row, propagates and skips every later
step.  Returns the events that occurred and the propagated exception, if
any. -/
def completionRun (errHook : JsValue → Except String JsValue)
    (doneHook : JsValue → SqsMessage → Except String JsValue)
    (now : Int) (msg : SqsMessage)
    (err output _group _count : JsValue) : List Event × Option String :=
  if jsTruthy err then
    match errHook err with
    | .error e => ([.errorHookCalled err], some e)
    | .ok _ =>
      match report now err .null msg with
      | .error e => ([.errorHookCalled err], some e)
      | .ok rec =>
          ([.errorHookCalled err, .auditCreate rec, .deleteMessage msg.ReceiptHandle],
           none)
  else
    match doneHook output msg with
    | .error e => ([.doneHookCalled output msg], some e)
    | .ok _ =>
      match report now .null output msg with
      | .error e => ([.doneHookCalled output msg], some e)
      | .ok rec =>
          ([.doneHookCalled output msg, .auditCreate rec, .deleteMessage msg.ReceiptHandle],
           none)

/-- The runtime kind of a body value, in the vocabulary of §4.1 of the
specification: the classification the matcher's switch tests a present
field against. -/
def kindMatches (k : JsKind) (v : JsValue) : Bool :=
  jsConstructorKind v == some k

/-- A schema field is satisfied by a body when the field is present and its
value's runtime kind matches the declared kind. -/
def fieldSatisfied (fields : List (String × JsValue)) (p : String) (k : JsKind) : Bool :=
  match fields.lookup p with
  | some v => kindMatches k v
  | none => false

/-- The schema values that the matcher switch supports (the six built-in
constructors). -/
def isSupportedCtor : JsValue → Bool
  | .ctor .kstring => true
  | .ctor .karray => true
  | .ctor .kobject => true
  | .ctor .knumber => true
  | .ctor .kboolean => true
  | .ctor .kdate => true
  | _ => false

/-! ## Helper lemmas -/

/-- A property test that returned (rather than threw) implies the
subsequent property read also returns. -/
theorem hasOwn_ok_getProp (body : JsValue) (p : String) (t : Bool)
    (h : hasOwnPropertyE body p = .ok t) : ∃ v, getPropE body p = .ok v := by
  cases body
  case null => simp [hasOwnPropertyE] at h
  case undefined => simp [hasOwnPropertyE] at h
  all_goals exact ⟨_, rfl⟩

/-- A schema value that is none of the six supported constructors reaches
the default arm of the switch regardless of the body value. -/
theorem checkField_unsupported (sv : JsValue) (h : isSupportedCtor sv = false)
    (v : JsValue) : checkField sv v = .throwUnsupported := by
  cases sv with
  | ctor k =>
      cases k with
      | kfunction => rfl
      | kstring => simp [isSupportedCtor] at h
      | karray => simp [isSupportedCtor] at h
      | kobject => simp [isSupportedCtor] at h
      | knumber => simp [isSupportedCtor] at h
      | kboolean => simp [isSupportedCtor] at h
      | kdate => simp [isSupportedCtor] at h
  | undefined => rfl
  | null => rfl
  | bool b => rfl
  | num n => rfl
  | str s => rfl
  | arr xs => rfl
  | obj fs => rfl
  | date t => rfl
  | func i => rfl

/-- For a supported constructor case, the switch arm passes exactly when the
value's runtime kind matches, and it can never hit the default arm. -/
theorem checkField_ctor_spec (k : JsKind) (hkf : k ≠ JsKind.kfunction) (v : JsValue) :
    (checkField (.ctor k) v = .pass ↔ kindMatches k v = true) ∧
    checkField (.ctor k) v ≠ .throwUnsupported := by
  cases k <;>
    first
    | exact absurd rfl hkf
    | cases v <;>
        simp [checkField, ctorCmp, kindMatches, jsConstructorKind, jsTypeof, beq_iff_eq]

/-- Unfolding of the match loop over an object body at one declared field:
the body owns the field exactly when lookup succeeds, and the switch then
decides whether to continue, return `false`, or throw. -/
theorem matchLoop_obj_cons (F : List (String × JsValue)) (p : String)
    (sv : JsValue) (L : Validation) :
    matchLoop (.obj F) ((p, sv) :: L) =
      (match F.lookup p with
       | none => .nomatch
       | some v =>
         match checkField sv v with
         | .pass => matchLoop (.obj F) L
         | .fail => .nomatch
         | .throwType => .jsError "TypeError"
         | .throwUnsupported => .jsError "Object Constructor Type not supported.") := by
  rcases h : F.lookup p with _ | v <;> simp [matchLoop, hasOwnPropertyE, getPropE, h]

/-- Dispatch over an empty registry leaves the message alone. -/
theorem dispatchFrom_nil (parse : String → Option JsValue) (i : Nat) (msg : SqsMessage) :
    dispatchFrom parse i msg [] = .unmatched msg := rfl

/-- One non-matching closure advances the loop, with the body already
decoded into the message. -/
theorem dispatchFrom_cons_nomatch (parse : String → Option JsValue)
    (i : Nat) (msg : SqsMessage) (b : JsValue) (v : Validation) (rest : List Validation)
    (hd : decodeBody parse msg.Body = some b) (hm : matchLoop b v = .nomatch) :
    dispatchFrom parse i msg (v :: rest)
      = dispatchFrom parse (i + 1) { msg with Body := b } rest := by
  simp [dispatchFrom, processClosure, hd, hm]

/-- A matching closure stops the loop and reports the invoked index. -/
theorem dispatchFrom_cons_matched (parse : String → Option JsValue)
    (i : Nat) (msg : SqsMessage) (b : JsValue) (v : Validation) (rest : List Validation)
    (hd : decodeBody parse msg.Body = some b) (hm : matchLoop b v = .matched) :
    dispatchFrom parse i msg (v :: rest) = .handled i b { msg with Body := b } := by
  simp [dispatchFrom, processClosure, hd, hm]

/-- A throwing closure aborts the loop. -/
theorem dispatchFrom_cons_threw (parse : String → Option JsValue)
    (i : Nat) (msg : SqsMessage) (b : JsValue) (e : String) (v : Validation)
    (rest : List Validation)
    (hd : decodeBody parse msg.Body = some b) (hm : matchLoop b v = .jsError e) :
    dispatchFrom parse i msg (v :: rest) = .errored e { msg with Body := b } := by
  simp [dispatchFrom, processClosure, hd, hm]

/-- When the body does not decode, every closure returns `false` without
touching the message, so the whole loop falls through. -/
theorem dispatchFrom_decode_none (parse : String → Option JsValue)
    (msg : SqsMessage) (hd : decodeBody parse msg.Body = none) :
    ∀ (procs : List Validation) (i : Nat), dispatchFrom parse i msg procs = .unmatched msg := by
  intro procs
  induction procs with
  | nil => intro i; rfl
  | cons v rest ih =>
      intro i
      have : dispatchFrom parse i msg (v :: rest) = dispatchFrom parse (i + 1) msg rest := by
        simp [dispatchFrom, processClosure, hd]
      rw [this]
      exact ih (i + 1)

/-- First-match selection: after any block of non-matching closures, the
first closure whose schema matches the decoded body handles the message,
and the closures after it never run (the result does not depend on them).
`hst` says the decoded body re-decodes to itself, which holds whenever it is
not itself a string (every closure repeats the decode on the shared,
already-mutated message object). -/
theorem dispatchFrom_first (parse : String → Option JsValue) (b : JsValue)
    (hst : decodeBody parse b = some b) (v : Validation) (post : List Validation)
    (hm : matchLoop b v = .matched) :
    ∀ (pre : List Validation) (i : Nat) (msg : SqsMessage),
      decodeBody parse msg.Body = some b →
      (∀ w ∈ pre, matchLoop b w = .nomatch) →
      dispatchFrom parse i msg (pre ++ v :: post)
        = .handled (i + pre.length) b { msg with Body := b } := by
  intro pre
  induction pre with
  | nil =>
      intro i msg hd _
      simpa using dispatchFrom_cons_matched parse i msg b v post hd hm
  | cons w pre ih =>
      intro i msg hd hpre
      rw [List.cons_append,
        dispatchFrom_cons_nomatch parse i msg b w (pre ++ v :: post) hd
          (hpre w (List.mem_cons_self _ _))]
      have := ih (i + 1) { msg with Body := b } hst
        (fun u hu => hpre u (List.mem_cons_of_mem _ hu))
      rw [this]
      have harith : i + 1 + pre.length = i + (w :: pre).length := by
        simp [List.length_cons]; omega
      rw [harith]

/-- When every registered schema fails to match the decoded body, the loop
falls through and no closure returns `true`. -/
theorem dispatchFrom_all_nomatch (parse : String → Option JsValue) (b : JsValue)
    (hst : decodeBody parse b = some b) :
    ∀ (procs : List Validation) (i : Nat) (msg : SqsMessage),
      decodeBody parse msg.Body = some b →
      (∀ w ∈ procs, matchLoop b w = .nomatch) →
      ∃ m, dispatchFrom parse i msg procs = .unmatched m := by
  intro procs
  induction procs with
  | nil => exact fun i msg _ _ => ⟨msg, rfl⟩
  | cons w rest ih =>
      intro i msg hd hall
      rw [dispatchFrom_cons_nomatch parse i msg b w rest hd
        (hall w (List.mem_cons_self _ _))]
      exact ih (i + 1) { msg with Body := b } hst
        (fun u hu => hall u (List.mem_cons_of_mem _ hu))

/-! ## Claim theorems -/

/-- Claim C3, counterexample: registering a rule whose schema declares an
unsupported kind (here the string value `"notakind"`) succeeds and appends
the rule — the registration call does not fail — and it is dispatch of a
message owning that field that throws the configuration error. -/
theorem unsupported_kind_registration_cex :
    processRegister [] (JsValue.str "case1")
        (JsValue.obj [("a", JsValue.str "notakind")]) (JsValue.func 0)
      = .ok [[("a", JsValue.str "notakind")]] ∧
    matchLoop (JsValue.obj [("a", JsValue.num 1)]) [("a", JsValue.str "notakind")]
      = .jsError "Object Constructor Type not supported." :=
  ⟨rfl, rfl⟩

/-- Claim C3, amended: registration never inspects the declared kinds — any
schema object is accepted whenever the use-case and handler arguments pass
their `typeof` checks — and an unsupported kind is reported at dispatch,
exactly when a message whose decoded body owns the field is matched against
the rule; a message without the field merely fails to match. -/
theorem unsupported_kind_surfaces_at_dispatch
    (procs : List Validation) (u c : JsValue) (fields : Validation)
    (hu : jsTruthy u = true ∨ jsTypeof u = "string") (hc : jsTypeof c = "function") :
    processRegister procs u (JsValue.obj fields) c = .ok (procs ++ [fields]) ∧
    ∀ (p : String) (sv body : JsValue), isSupportedCtor sv = false →
      (hasOwnPropertyE body p = .ok true →
        matchLoop body [(p, sv)] = .jsError "Object Constructor Type not supported.") ∧
      (hasOwnPropertyE body p = .ok false → matchLoop body [(p, sv)] = .nomatch) := by
  constructor
  · rcases hu with h | h <;>
      simp [processRegister, h, hc, validationOwnFields,
        show jsTypeof (JsValue.obj fields) = "object" from rfl]
  · intro p sv body hsv
    constructor
    · intro hown
      obtain ⟨v, hv⟩ := hasOwn_ok_getProp body p true hown
      simp [matchLoop, hown, hv, checkField_unsupported sv hsv v]
    · intro hown
      simp [matchLoop, hown]

/-- Claim C3 witness: a concrete registration with an unsupported kind that
succeeds, together with the dispatch-time error for a message owning the
field. -/
theorem unsupported_kind_surfaces_at_dispatch_w :
    processRegister [] (JsValue.str "c") (JsValue.obj [("a", JsValue.num 5)]) (JsValue.func 0)
      = .ok [[("a", JsValue.num 5)]] ∧
    matchLoop (JsValue.obj [("a", JsValue.bool true)]) [("a", JsValue.num 5)]
      = .jsError "Object Constructor Type not supported." :=
  ⟨(unsupported_kind_surfaces_at_dispatch [] (JsValue.str "c") (JsValue.func 0)
      [("a", JsValue.num 5)] (Or.inr rfl) rfl).1,
   ((unsupported_kind_surfaces_at_dispatch [] (JsValue.str "c") (JsValue.func 0)
      [("a", JsValue.num 5)] (Or.inr rfl) rfl).2 "a" (JsValue.num 5)
      (JsValue.obj [("a", JsValue.bool true)]) rfl).1 rfl⟩

/-- Claim C4, counterexample: a schema declaring a `Date` kind rejects a
body whose value for that field is a date string — the matcher requires
`constructor === Date`, so a parseable-as-date representation does not
match. -/
theorem date_kind_string_rejected_cex :
    matchLoop (JsValue.obj [("d", JsValue.str "2015-03-25")])
      [("d", JsValue.ctor .kdate)] = .nomatch := rfl

/-- Claim C4, amended: the `Date` arm of the matcher accepts exactly the
values that already are typed `Date` objects; every other representation of
a date (strings in particular) is rejected.  (A body decoded from a JSON
string can never contain a typed `Date`, so a date rule can only match a
body that was already structured.) -/
theorem date_kind_requires_typed_date (p : String) (v : JsValue) :
    matchLoop (JsValue.obj [(p, v)]) [(p, JsValue.ctor .kdate)] = .matched
      ↔ ∃ t, v = JsValue.date t := by
  rw [matchLoop_obj_cons]
  have hl : List.lookup p [(p, v)] = some v := by simp [List.lookup]
  rw [hl]
  cases v <;> simp [checkField, ctorCmp, jsConstructorKind, matchLoop]

/-- Claim C4 witness: a typed `Date` value does match the `Date` kind. -/
theorem date_kind_requires_typed_date_w :
    matchLoop (JsValue.obj [("d", JsValue.date 1427241600000)])
      [("d", JsValue.ctor .kdate)] = .matched :=
  (date_kind_requires_typed_date "d" (JsValue.date 1427241600000)).mpr ⟨1427241600000, rfl⟩

/-- Claim C5 (code-bug evidence): the registration guard
`!useCase && typeof useCase !== 'string'` only rejects arguments that are
both falsy and not of string type, so an empty-string use case and a truthy
non-string use case are both accepted and the rule is appended, while a
falsy non-string such as `null` is rejected — contradicting the contract
(and the code's own error message) that the use case must be a (non-empty)
string. -/
theorem register_empty_usecase_accepted :
    processRegister [] (JsValue.str "") (JsValue.obj []) (JsValue.func 0) = .ok [[]] ∧
    processRegister [] (JsValue.num 5) (JsValue.obj []) (JsValue.func 0) = .ok [[]] ∧
    processRegister [] JsValue.null (JsValue.obj []) (JsValue.func 0)
      = .error "The argument you supplied for the use case is improper. It must be a string." :=
  ⟨rfl, rfl, rfl⟩

/-- Claim C7: a message whose string body fails to decode is returned by
every closure as unmatched, with no handler invocation, no mutation of the
message, and a result that does not depend on the registered schemas at all
(so no schema matching is consulted); since audit writes and deletes are
produced only by a handler's completion callback, none occur. -/
theorem dispatch_decode_failure_no_effects (parse : String → Option JsValue)
    (procs : List Validation) (msg : SqsMessage) (s : String)
    (hb : msg.Body = .str s) (hp : parse s = none) :
    dispatchMessage parse procs msg = .unmatched msg ∧
    handlerInvocations (dispatchMessage parse procs msg) = [] ∧
    ∀ procs' : List Validation,
      dispatchMessage parse procs' msg = dispatchMessage parse procs msg := by
  have hd : decodeBody parse msg.Body = none := by rw [hb]; simpa using hp
  have h1 : dispatchMessage parse procs msg = .unmatched msg :=
    dispatchFrom_decode_none parse msg hd procs 0
  exact ⟨h1, by rw [h1]; rfl,
    fun procs' => by rw [h1]; exact dispatchFrom_decode_none parse msg hd procs' 0⟩

/-- Claim C7 witness: an unparseable body with one registered rule. -/
theorem dispatch_decode_failure_no_effects_w :
    dispatchMessage (fun _ => none) [[("Name", JsValue.ctor .kstring)]]
      ⟨"m1", "r1", JsValue.str "not json"⟩
      = .unmatched ⟨"m1", "r1", JsValue.str "not json"⟩ :=
  (dispatch_decode_failure_no_effects (fun _ => none) [[("Name", JsValue.ctor .kstring)]]
    ⟨"m1", "r1", JsValue.str "not json"⟩ "not json" rfl rfl).1

/-- Claim C9, counterexample: evaluating a rule whose match fails against a
message with a string body still mutates the message — the decode step
overwrites `message.Body` with the parsed object before the match loop
runs. -/
theorem match_step_mutates_body_cex :
    (processClosure
        (fun s => if s = "mjson" then some (JsValue.obj [("Name", JsValue.str "S")]) else none)
        [("Age", JsValue.ctor .knumber)]
        ⟨"m1", "r1", JsValue.str "mjson"⟩).2
      ≠ ⟨"m1", "r1", JsValue.str "mjson"⟩ := by
  intro h
  exact JsValue.noConfusion (congrArg SqsMessage.Body h)

/-- Claim C9, amended: the schema-match loop itself is a pure function of
the schema and the decoded body, and evaluating a rule never touches the
message identifier, receipt handle, or registry; but the decode step
overwrites `message.Body` with the decoded value whenever decoding
succeeds (the body is left alone when decoding fails). -/
theorem match_step_body_effect (parse : String → Option JsValue)
    (v : Validation) (msg : SqsMessage) :
    (processClosure parse v msg).2 =
      (match decodeBody parse msg.Body with
       | some b => { msg with Body := b }
       | none => msg) ∧
    (processClosure parse v msg).2.MessageId = msg.MessageId ∧
    (processClosure parse v msg).2.ReceiptHandle = msg.ReceiptHandle ∧
    ∀ b, decodeBody parse msg.Body = some b →
      (processClosure parse v msg).1 =
        (match matchLoop b v with
         | .matched => .invoked b
         | .nomatch => .noMatch
         | .jsError e => .threw e) := by
  rcases hd : decodeBody parse msg.Body with _ | b
  · refine ⟨by simp [processClosure, hd], by simp [processClosure, hd],
      by simp [processClosure, hd], ?_⟩
    intro b hb
    exact Option.noConfusion hb
  · refine ⟨?_, ?_, ?_, ?_⟩
    · rcases hm : matchLoop b v with _ | _ | e <;> simp [processClosure, hd, hm]
    · rcases hm : matchLoop b v with _ | _ | e <;> simp [processClosure, hd, hm]
    · rcases hm : matchLoop b v with _ | _ | e <;> simp [processClosure, hd, hm]
    · intro b' hb'
      obtain rfl := Option.some.inj hb'
      rcases hm : matchLoop b v with _ | _ | e <;> simp [processClosure, hd, hm]

/-- Claim C9 witness: the effect characterization applied to the mutating
example. -/
theorem match_step_body_effect_w :
    (processClosure
        (fun s => if s = "mj" then some (JsValue.obj [("N", JsValue.str "S")]) else none)
        [("N", JsValue.ctor .kstring)]
        ⟨"m1", "r1", JsValue.str "mj"⟩).1
      = .invoked (JsValue.obj [("N", JsValue.str "S")]) :=
  ((match_step_body_effect
      (fun s => if s = "mj" then some (JsValue.obj [("N", JsValue.str "S")]) else none)
      [("N", JsValue.ctor .kstring)]
      ⟨"m1", "r1", JsValue.str "mj"⟩).2.2.2
    (JsValue.obj [("N", JsValue.str "S")]) (by simp [decodeBody])).trans rfl

/-- Claim C10: a rule registered with an empty schema matches every body —
the `for..in` loop body never runs — so when it is registered first, every
message that decodes is handled by it at index 0 and the result does not
depend on any later rule. -/
theorem empty_schema_matches_all (parse : String → Option JsValue)
    (msg : SqsMessage) (b : JsValue) (rest : List Validation)
    (hd : decodeBody parse msg.Body = some b) :
    (∀ body : JsValue, matchLoop body [] = .matched) ∧
    dispatchMessage parse ([] :: rest) msg = .handled 0 b { msg with Body := b } ∧
    ∀ rest' : List Validation,
      dispatchMessage parse ([] :: rest') msg = .handled 0 b { msg with Body := b } := by
  refine ⟨fun _ => rfl, ?_, fun rest' => ?_⟩
  · exact dispatchFrom_cons_matched parse 0 msg b [] rest hd rfl
  · exact dispatchFrom_cons_matched parse 0 msg b [] rest' hd rfl

/-- Claim C1, counterexample: with rules `[{a: Object}, {}]` registered and
a decodable message body `{"a": null}`, the first rule in registration
order whose schema matches is the second (its empty schema matches
everything), yet dispatch invokes no handler: evaluating the first rule
reads `null.constructor` and throws a TypeError that aborts the loop. -/
theorem dispatch_shadowed_match_cex :
    dispatchMessage (fun _ => none)
      [[("a", JsValue.ctor .kobject)], []]
      ⟨"m1", "r1", JsValue.obj [("a", JsValue.null)]⟩
      = .errored "TypeError" ⟨"m1", "r1", JsValue.obj [("a", JsValue.null)]⟩ ∧
    matchLoop (JsValue.obj [("a", JsValue.null)]) [] = .matched :=
  ⟨rfl, rfl⟩

/-- Claim C1, amended: provided no rule's match evaluation throws on the
decoded body — every rule before the first match returns `false` — dispatch
invokes the handler of the first rule in registration order whose schema
matches, at its registration index, and the rules after it never affect the
result; and when every rule fails to match, no handler is invoked (and
hence no audit record and no delete, which only a handler's completion can
produce).  `hst` says the decoded body re-decodes to itself, which holds
whenever the decode result is not itself a string. -/
theorem dispatch_first_match_wins (parse : String → Option JsValue)
    (msg : SqsMessage) (b : JsValue)
    (hd : decodeBody parse msg.Body = some b)
    (hst : decodeBody parse b = some b) :
    (∀ (pre : List Validation) (v : Validation) (post : List Validation),
      (∀ w ∈ pre, matchLoop b w = .nomatch) → matchLoop b v = .matched →
      dispatchMessage parse (pre ++ v :: post) msg
        = .handled pre.length b { msg with Body := b }) ∧
    (∀ procs : List Validation, (∀ w ∈ procs, matchLoop b w = .nomatch) →
      ∃ m, dispatchMessage parse procs msg = .unmatched m ∧
        handlerInvocations (dispatchMessage parse procs msg) = []) := by
  constructor
  · intro pre v post hpre hm
    have h := dispatchFrom_first parse b hst v post hm pre 0 msg hd hpre
    simpa [dispatchMessage] using h
  · intro procs hall
    obtain ⟨m, hm⟩ := dispatchFrom_all_nomatch parse b hst procs 0 msg hd hall
    refine ⟨m, hm, ?_⟩
    show handlerInvocations (dispatchFrom parse 0 msg procs) = []
    rw [hm]
    rfl

/-- Claim C1 witness: a non-matching rule followed by the matching rule and
a trailing rule; the second rule's handler is invoked at index 1. -/
theorem dispatch_first_match_wins_w :
    dispatchMessage (fun _ => none)
      [[("Age", JsValue.ctor .knumber)], [("Name", JsValue.ctor .kstring)], []]
      ⟨"m1", "r1", JsValue.obj [("Name", JsValue.str "Stephen")]⟩
      = .handled 1 (JsValue.obj [("Name", JsValue.str "Stephen")])
          ⟨"m1", "r1", JsValue.obj [("Name", JsValue.str "Stephen")]⟩ :=
  (dispatch_first_match_wins (fun _ => none)
      ⟨"m1", "r1", JsValue.obj [("Name", JsValue.str "Stephen")]⟩
      (JsValue.obj [("Name", JsValue.str "Stephen")]) rfl rfl).1
    [[("Age", JsValue.ctor .knumber)]] [("Name", JsValue.ctor .kstring)] [[]]
    (by intro w hw; simp at hw; subst hw; rfl) rfl

/-- Claim C2, counterexample: when the registered error hook throws, the
completion callback stops there — no audit record is written and the
message is NOT deleted — so deletion is in fact conditioned on the hook
returning normally. -/
theorem completion_hook_throw_cex :
    completionRun (fun _ => .error "hookBoom") (fun _ _ => .ok .null) 0
      ⟨"m1", "r1", JsValue.obj [("by", JsValue.str "k")]⟩
      (JsValue.str "boom") JsValue.null JsValue.undefined JsValue.undefined
      = ([.errorHookCalled (JsValue.str "boom")], some "hookBoom") := rfl

/-- Claim C2, amended: when the handler reports a (truthy) error and the
registered error hook returns normally, the events are exactly: error hook
called with the error, one audit record created with error status, then the
delete — and symmetrically for success with the done hook receiving the
output and message and a success-status record.  The delete follows the
hook and the audit-row construction in initiation order, and since the
audit insert is fire-and-forget, deletion is not conditioned on the
asynchronous audit write succeeding; but a hook that throws (or a TypeError
while building the row) aborts the remaining steps, including the
delete. -/
theorem completion_protocol_order
    (eh : JsValue → Except String JsValue)
    (dh : JsValue → SqsMessage → Except String JsValue)
    (now : Int) (msg : SqsMessage) (err output g c refVal : JsValue)
    (href : getPropE msg.Body "by" = .ok refVal) :
    (jsTruthy err = true → ∀ r, eh err = .ok r →
      completionRun eh dh now msg err output g c =
        ([.errorHookCalled err,
          .auditCreate ⟨msg.MessageId, now, "error", refVal, jsStringify err⟩,
          .deleteMessage msg.ReceiptHandle], none)) ∧
    (jsTruthy err = false → ∀ r, dh output msg = .ok r →
      completionRun eh dh now msg err output g c =
        ([.doneHookCalled output msg,
          .auditCreate ⟨msg.MessageId, now, "success", refVal, jsStringify output⟩,
          .deleteMessage msg.ReceiptHandle], none)) := by
  constructor
  · intro ht r hr
    simp [completionRun, ht, hr, report, href]
  · intro ht r hr
    simp [completionRun, ht, hr, report, href,
      show jsTruthy JsValue.null = false from rfl]

/-- Claim C2 witness: concrete error and success completions with hooks
that return normally, showing the hook-audit-delete event sequence. -/
theorem completion_protocol_order_w :
    completionRun (fun e => .ok e) (fun o _ => .ok o) 5
      ⟨"m1", "r1", JsValue.obj [("by", JsValue.str "k")]⟩
      (JsValue.str "boom") JsValue.null JsValue.undefined JsValue.undefined
      = ([.errorHookCalled (JsValue.str "boom"),
          .auditCreate ⟨"m1", 5, "error", JsValue.str "k", jsStringify (JsValue.str "boom")⟩,
          .deleteMessage "r1"], none) ∧
    completionRun (fun e => .ok e) (fun o _ => .ok o) 5
      ⟨"m2", "r2", JsValue.obj [("by", JsValue.str "k")]⟩
      JsValue.null (JsValue.str "out") JsValue.undefined JsValue.undefined
      = ([.doneHookCalled (JsValue.str "out")
            ⟨"m2", "r2", JsValue.obj [("by", JsValue.str "k")]⟩,
          .auditCreate ⟨"m2", 5, "success", JsValue.str "k", jsStringify (JsValue.str "out")⟩,
          .deleteMessage "r2"], none) :=
  ⟨(completion_protocol_order (fun e => .ok e) (fun o _ => .ok o) 5
      ⟨"m1", "r1", JsValue.obj [("by", JsValue.str "k")]⟩
      (JsValue.str "boom") JsValue.null JsValue.undefined JsValue.undefined
      (JsValue.str "k") rfl).1 rfl (JsValue.str "boom") rfl,
   (completion_protocol_order (fun e => .ok e) (fun o _ => .ok o) 5
      ⟨"m2", "r2", JsValue.obj [("by", JsValue.str "k")]⟩
      JsValue.null (JsValue.str "out") JsValue.undefined JsValue.undefined
      (JsValue.str "k") rfl).2 rfl (JsValue.str "out") rfl⟩

/-- Claim C6, counterexample: a kind mismatch does not always yield `false`
— a `null` body value under an `Object` kind makes the matcher throw a
TypeError (reading `null.constructor`) instead of returning `false`. -/
theorem matcher_null_value_throws_cex :
    matchLoop (JsValue.obj [("a", JsValue.null)]) [("a", JsValue.ctor .kobject)]
      = .jsError "TypeError" ∧
    matchLoop (JsValue.obj [("a", JsValue.null)]) [("a", JsValue.ctor .kobject)]
      ≠ .nomatch :=
  ⟨rfl, by decide⟩

/-- Claim C6, amended: over object bodies, the matcher returns `true` iff
every schema-declared field is present with a matching runtime kind, and
body fields not mentioned in the schema never affect the result; a missing
field or kind mismatch yields `false`, except that a `null`/`undefined`
value under one of the constructor-compared kinds throws a TypeError
instead of returning `false`. -/
theorem matcher_subset_iff (sch : List (String × JsKind))
    (fields : List (String × JsValue))
    (hk : ∀ pk ∈ sch, pk.2 ≠ JsKind.kfunction) :
    (matchLoop (.obj fields) (sch.map (fun pk => (pk.1, JsValue.ctor pk.2))) = .matched
      ↔ ∀ pk ∈ sch, fieldSatisfied fields pk.1 pk.2 = true) ∧
    (∀ fields' : List (String × JsValue),
      (∀ pk ∈ sch, fields'.lookup pk.1 = fields.lookup pk.1) →
      matchLoop (.obj fields') (sch.map (fun pk => (pk.1, JsValue.ctor pk.2)))
        = matchLoop (.obj fields) (sch.map (fun pk => (pk.1, JsValue.ctor pk.2)))) := by
  induction sch with
  | nil => exact ⟨by simp [matchLoop], fun _ _ => rfl⟩
  | cons hd tl ih =>
    obtain ⟨p, k⟩ := hd
    have hk0 : k ≠ JsKind.kfunction := hk (p, k) (List.mem_cons_self _ _)
    obtain ⟨ih1, ih2⟩ := ih (fun q hq => hk q (List.mem_cons_of_mem _ hq))
    constructor
    · rcases hl : fields.lookup p with _ | v
      · have hstep : matchLoop (.obj fields)
            (((p, k) :: tl).map (fun pk => (pk.1, JsValue.ctor pk.2))) = .nomatch := by
          simp only [List.map_cons]
          rw [matchLoop_obj_cons, hl]
        rw [hstep]
        constructor
        · intro h; exact absurd h (by decide)
        · intro hall
          have h1 := hall (p, k) (List.mem_cons_self _ _)
          simp [fieldSatisfied, hl] at h1
      · rcases hcf : checkField (.ctor k) v with _ | _ | _ | _
        · have hkm : kindMatches k v = true := (checkField_ctor_spec k hk0 v).1.mp hcf
          have hstep : matchLoop (.obj fields)
              (((p, k) :: tl).map (fun pk => (pk.1, JsValue.ctor pk.2)))
                = matchLoop (.obj fields) (tl.map (fun pk => (pk.1, JsValue.ctor pk.2))) := by
            simp only [List.map_cons]
            rw [matchLoop_obj_cons]
            simp only [hl, hcf]
          rw [hstep, ih1, List.forall_mem_cons]
          simp [fieldSatisfied, hl, hkm]
        · have hkm : kindMatches k v = false := by
            cases hkmv : kindMatches k v
            · rfl
            · have := (checkField_ctor_spec k hk0 v).1.mpr hkmv
              rw [hcf] at this
              exact absurd this (by decide)
          have hstep : matchLoop (.obj fields)
              (((p, k) :: tl).map (fun pk => (pk.1, JsValue.ctor pk.2))) = .nomatch := by
            simp only [List.map_cons]
            rw [matchLoop_obj_cons]
            simp only [hl, hcf]
          rw [hstep]
          constructor
          · intro h; exact absurd h (by decide)
          · intro hall
            have h1 := hall (p, k) (List.mem_cons_self _ _)
            simp [fieldSatisfied, hl, hkm] at h1
        · have hkm : kindMatches k v = false := by
            cases hkmv : kindMatches k v
            · rfl
            · have := (checkField_ctor_spec k hk0 v).1.mpr hkmv
              rw [hcf] at this
              exact absurd this (by decide)
          have hstep : matchLoop (.obj fields)
              (((p, k) :: tl).map (fun pk => (pk.1, JsValue.ctor pk.2)))
                = .jsError "TypeError" := by
            simp only [List.map_cons]
            rw [matchLoop_obj_cons]
            simp only [hl, hcf]
          rw [hstep]
          constructor
          · intro h; exact absurd h (by decide)
          · intro hall
            have h1 := hall (p, k) (List.mem_cons_self _ _)
            simp [fieldSatisfied, hl, hkm] at h1
        · exact absurd hcf (checkField_ctor_spec k hk0 v).2
    · intro fields' hagree
      have hp' : fields'.lookup p = fields.lookup p :=
        hagree (p, k) (List.mem_cons_self _ _)
      have hrec := ih2 fields' (fun q hq => hagree q (List.mem_cons_of_mem _ hq))
      simp only [List.map_cons]
      rw [matchLoop_obj_cons, matchLoop_obj_cons, hp', hrec]

/-- Claim C6 witness: a satisfied two-field schema matches, via the
characterization. -/
theorem matcher_subset_iff_w :
    matchLoop (JsValue.obj [("Name", JsValue.str "Stephen"), ("extra", JsValue.num 3)])
      ([("Name", JsKind.kstring)].map (fun pk => (pk.1, JsValue.ctor pk.2)))
      = .matched :=
  (matcher_subset_iff [("Name", JsKind.kstring)]
      [("Name", JsValue.str "Stephen"), ("extra", JsValue.num 3)]
      (by intro pk hpk; simp at hpk; subst hpk; decide)).1.mpr
    (by intro pk hpk; simp at hpk; subst hpk; rfl)

/-- Claim C8, counterexample: the completion callback declares only
`(err, output)`, so the group and affected-count arguments are ignored —
two completions differing only in those arguments produce identical events,
hence no persisted record can carry them. -/
theorem completion_ignores_group_count_cex :
    completionRun (fun e => .ok e) (fun o _ => .ok o) 0
      ⟨"m1", "r1", JsValue.obj [("by", JsValue.str "k")]⟩
      JsValue.null (JsValue.str "out") (JsValue.str "groupA") (JsValue.num 7)
      = completionRun (fun e => .ok e) (fun o _ => .ok o) 0
      ⟨"m1", "r1", JsValue.obj [("by", JsValue.str "k")]⟩
      JsValue.null (JsValue.str "out") (JsValue.str "groupB") (JsValue.num 9) := rfl

/-- Claim C8, amended: the completion callback accepts four-argument calls
but uses only the first two, and every persisted audit record carries
exactly: the message identifier, a creation date, the success/error status,
a reference read from the decoded body's `by` field, and the serialized
result or error — there is no original-message identifier, group label or
affected-count in the row. -/
theorem audit_record_shape
    (eh : JsValue → Except String JsValue)
    (dh : JsValue → SqsMessage → Except String JsValue)
    (now : Int) (msg : SqsMessage) (err output g c g' c' : JsValue) :
    completionRun eh dh now msg err output g c
      = completionRun eh dh now msg err output g' c' ∧
    ∀ rec, report now err output msg = .ok rec →
      rec.messageId = msg.MessageId ∧
      rec.createDate = now ∧
      rec.reportStatus = (if jsTruthy err then "error" else "success") ∧
      getPropE msg.Body "by" = .ok rec.reference ∧
      rec.referenceValue
        = (if jsTruthy err then jsStringify err else jsStringify output) := by
  refine ⟨rfl, ?_⟩
  intro rec h
  rcases hby : getPropE msg.Body "by" with e | r
  · rw [report, hby] at h
    exact Except.noConfusion h
  · rw [report, hby] at h
    obtain rfl := Except.ok.inj h
    exact ⟨rfl, rfl, rfl, rfl, rfl⟩

/-- Claim C8 witness: the record produced by a concrete successful report,
and the group/count irrelevance at concrete arguments. -/
theorem audit_record_shape_w :
    completionRun (fun e => .ok e) (fun o _ => .ok o) 3
      ⟨"m", "r", JsValue.obj []⟩ JsValue.null (JsValue.num 2)
      (JsValue.str "g") (JsValue.num 1)
      = completionRun (fun e => .ok e) (fun o _ => .ok o) 3
      ⟨"m", "r", JsValue.obj []⟩ JsValue.null (JsValue.num 2)
      JsValue.undefined JsValue.undefined ∧
    (⟨"m", 3, "success", JsValue.undefined, jsStringify (JsValue.num 2)⟩
        : AuditRecord).messageId = "m" :=
  ⟨(audit_record_shape (fun e => .ok e) (fun o _ => .ok o) 3
      ⟨"m", "r", JsValue.obj []⟩ JsValue.null (JsValue.num 2)
      (JsValue.str "g") (JsValue.num 1) JsValue.undefined JsValue.undefined).1,
   ((audit_record_shape (fun e => .ok e) (fun o _ => .ok o) 3
      ⟨"m", "r", JsValue.obj []⟩ JsValue.null (JsValue.num 2)
      (JsValue.str "g") (JsValue.num 1) JsValue.undefined JsValue.undefined).2
      ⟨"m", 3, "success", JsValue.undefined, jsStringify (JsValue.num 2)⟩ rfl).1⟩

/-- Claim C10 witness: an empty-schema rule registered first handles a
concrete structured message, and the rule after it is never reached. -/
theorem empty_schema_matches_all_w :
    dispatchMessage (fun _ => none) [[], [("x", JsValue.ctor .kstring)]]
      ⟨"m1", "r1", JsValue.obj [("Name", JsValue.str "Stephen")]⟩
      = .handled 0 (JsValue.obj [("Name", JsValue.str "Stephen")])
          ⟨"m1", "r1", JsValue.obj [("Name", JsValue.str "Stephen")]⟩ :=
  (empty_schema_matches_all (fun _ => none)
    ⟨"m1", "r1", JsValue.obj [("Name", JsValue.str "Stephen")]⟩
    (JsValue.obj [("Name", JsValue.str "Stephen")])
    [[("x", JsValue.ctor .kstring)]] rfl).2.1

end SqsArch
